import Mathlib

/-!
Shallow embedding of the blackbird monitoring agent's core
(src/blackbird/sr71.py and src/blackbird/plugins/base.py): the item data
model, job descriptor resolution, the supervisor loop, the per-job
executor and the bounded queue, together with theorems checking the
specification's claims against the embedded code.
-/

namespace Blackbird

/-! ## Item data model (blackbird/plugins/base.py) -/

/-- One hexadecimal digit, lower case, as produced by Python's json module
when escaping control characters. -/
def hexDigit (n : Nat) : Char :=
  if n < 10 then Char.ofNat (48 + n) else Char.ofNat (87 + n)

/-- Escaping of a single character of string content as performed by
Python's json.dumps on ASCII input: double quote, backslash and control
characters are escaped, everything else passes through unchanged. -/
def jsonEscapeChar (c : Char) : String :=
  if c = '"' then "\\\""
  else if c = '\\' then "\\\\"
  else if c = '\n' then "\\n"
  else if c = '\t' then "\\t"
  else if c = '\r' then "\\r"
  else if c.toNat = 8 then "\\b"
  else if c.toNat = 12 then "\\f"
  else if c.toNat < 32 then
    "\\u00" ++ String.mk [hexDigit (c.toNat / 16), hexDigit (c.toNat % 16)]
  else String.mk [c]

/-- json.dumps rendering of a Python string value. -/
def dumpsStr (s : String) : String :=
  "\"" ++ String.join (s.data.map jsonEscapeChar) ++ "\""

/-- json.dumps rendering of one flat Python dict with string keys and
string values, in iteration order.  DiscoveryItem's documented value
contract (base.py docstring, lines 87-96) is a list or tuple of exactly
such dicts. -/
def dumpsStrDict (d : List (String × String)) : String :=
  "\x7b" ++
    String.intercalate ", " (d.map fun kv => dumpsStr kv.1 ++ ": " ++ dumpsStr kv.2) ++
    "\x7d"

/-- The envelope json.dumps(\x7b'data': value\x7d) built by
DiscoveryItem._generate (base.py lines 114-117), for a value that is a
list of string-to-string dicts. -/
def dumpsEnvelope (value : List (List (String × String))) : String :=
  "\x7b" ++ dumpsStr "data" ++ ": " ++
    "[" ++ String.intercalate ", " (value.map dumpsStrDict) ++ "]" ++ "\x7d"

/-- ItemBase.__set_timestamp (base.py lines 60-72): if clock is None the
construction-time UTC unix timestamp is used (the embedding is pure, so
that timestamp is passed in as the parameter now); otherwise the supplied
clock is returned unchanged. -/
def setTimestamp (now : Int) (clock : Option Int) : Int :=
  match clock with
  | none => now
  | some c => c

/-- The attribute state of an ItemBase after __init__ (base.py lines
41-45).  The value type is a parameter because each concrete item variant
fixes its own value shape. -/
structure ItemBase (α : Type) where
  key : Option String
  value : α
  host : Option String
  clock : Int

/-- ItemBase.__init__ (base.py lines 41-45): stores key, value and host as
given and sets clock through __set_timestamp, where now is the UTC unix
timestamp observed at construction time. -/
def ItemBase.init {α : Type} (now : Int) (key : Option String) (value : α)
    (host : Option String) (clock : Option Int) : ItemBase α :=
  { key := key, value := value, host := host, clock := setTimestamp now clock }

/-- The data mapping produced by DiscoveryItem._generate (base.py lines
109-117): four entries host, clock, key and the JSON-encoded value
envelope.  Python dict equality ignores insertion order, so a record with
the four fields is a faithful model of the mapping. -/
structure DiscoveryData where
  host : String
  clock : Int
  key : String
  value : String
deriving DecidableEq

/-- A DiscoveryItem after construction (base.py lines 99-117): the
ItemBase state plus the data mapping assembled by _generate. -/
structure DiscoveryItem where
  base : ItemBase (List (List (String × String)))
  data : DiscoveryData

/-- DiscoveryItem.__init__ followed by _generate (base.py lines 99-117).
The constructor signature accepts a clock argument, but the call
super(DiscoveryItem, self).__init__(key, value, host) at line 100 does not
pass it on, so the base clock is always set from the construction time.
_generate then stores host, the base clock, key, and
json.dumps(\x7b'data': value\x7d). -/
def DiscoveryItem.init (now : Int) (key : String)
    (value : List (List (String × String))) (host : String)
    (clock : Option Int) : DiscoveryItem :=
  let base := ItemBase.init now (some key) value (some host) none
  { base := base
    data :=
      { host := host, clock := base.clock, key := key
        value := dumpsEnvelope value } }

/-- The value argument of the specification's DiscoveryItem example:
the Python list [\x7b"\x7b#H\x7d": "a"\x7d, \x7b"\x7b#H\x7d": "b"\x7d]. -/
def exampleLLDValue : List (List (String × String)) :=
  [[("\x7b#H\x7d", "a")], [("\x7b#H\x7d", "b")]]

/-- C1: constructing a DiscoveryItem with value [\x7b"\x7b#H\x7d": "a"\x7d,
\x7b"\x7b#H\x7d": "b"\x7d], key "disc.LLD", host "node1" and explicit clock
946652400 (at construction time 0) produces a data mapping whose host, key
and JSON-encoded value envelope are as the claim states, but whose clock is
the construction-time timestamp 0, not the supplied 946652400: the clock
argument is silently dropped by DiscoveryItem.__init__ at base.py line 100,
contradicting the claim that the supplied clock appears unchanged. -/
theorem discoveryitem_explicit_clock_is_dropped :
    (DiscoveryItem.init 0 "disc.LLD" exampleLLDValue "node1" (some 946652400)).data
      = { host := "node1", clock := 0, key := "disc.LLD"
          value := "\x7b\"data\": [\x7b\"\x7b#H\x7d\": \"a\"\x7d, \x7b\"\x7b#H\x7d\": \"b\"\x7d]\x7d" }
    ∧ (DiscoveryItem.init 0 "disc.LLD" exampleLLDValue "node1"
        (some 946652400)).data.clock ≠ 946652400 := by
  exact ⟨by decide, by decide⟩

/-- C7: the clock policy of ItemBase.__init__ / __set_timestamp (base.py
lines 41-45 and 60-72): an item constructed with an explicit clock stores
exactly the supplied value, and an item constructed without one stores the
timestamp observed at construction time.  The stored clock is a plain
attribute fixed at construction: it depends only on the construction-time
arguments, never on any later time reading. -/
theorem itembase_clock_policy {α : Type} (now : Int) (key : Option String)
    (value : α) (host : Option String) :
    (∀ c : Int, (ItemBase.init now key value host (some c)).clock = c)
    ∧ (ItemBase.init now key value host none).clock = now := by
  constructor
  · intro c
    rfl
  · rfl

/-! ## Executor (sr71.py lines 292-320) -/

/-- A Python value of the kinds a configured interval option can take:
a float, an int, or a string.  Floats are modelled as rationals, because
the claims about intervals concern which conversion runs, not
floating-point rounding. -/
inductive PyVal where
  | pyFloat (q : ℚ)
  | pyInt (n : Int)
  | pyStr (s : String)
deriving DecidableEq

/-- Numeric value of a decimal digit character, none otherwise. -/
def digitVal? (c : Char) : Option Nat :=
  if c.isDigit then some (c.toNat - 48) else none

/-- Numeric value of a non-empty list of decimal digit characters. -/
def digitsVal? : List Char → Option Nat
  | [] => none
  | l =>
    l.foldl (fun acc c => acc.bind fun a => (digitVal? c).map fun d => a * 10 + d)
      (some 0)

/-- Value of an unsigned decimal numeral, with an optional fractional
part, as accepted by Python's float() builtin on plain decimal input. -/
def decimalVal? (l : List Char) : Option ℚ :=
  match l.span (fun c => c ≠ '.') with
  | (ip, []) => (digitsVal? ip).map fun n => (n : ℚ)
  | (ip, _dot :: fp) =>
    if ip = [] ∧ fp = [] then none
    else
      match (if ip = [] then some 0 else digitsVal? ip),
            (if fp = [] then some 0 else digitsVal? fp) with
      | some n, some f => some ((n : ℚ) + (f : ℚ) / ((10 : ℚ) ^ fp.length))
      | _, _ => none

/-- Python's float() builtin on the value kinds above: a float is returned
unchanged, an int converts exactly, and a decimal string (optionally
signed, optional fractional part) is parsed; any other string raises
ValueError, modelled as none. -/
def pythonFloat : PyVal → Option ℚ
  | .pyFloat q => some q
  | .pyInt n => some (n : ℚ)
  | .pyStr s =>
    match s.data with
    | '-' :: rest => (decimalVal? rest).map fun q => -q
    | l => decimalVal? l

/-- The interval stored by Executor.__init__ (sr71.py lines 302-310):
if type(interval) is not float, the stored value is float(interval),
whose failure (ValueError on a non-numeric string) is modelled as none;
a float is stored unchanged. -/
def executorInterval : PyVal → Option ℚ
  | .pyFloat q => some q
  | v => pythonFloat v

/-- C10: for every interval value the Worker constructor accepts — float,
int, or numeric string — the stored interval used for sleeping equals the
float conversion of that value, so the sleep duration is always the float
reading of the configured representation. -/
theorem executor_interval_is_float_conversion (v : PyVal) (q : ℚ)
    (h : pythonFloat v = some q) : executorInterval v = some q := by
  cases v with
  | pyFloat r =>
    simpa [pythonFloat, executorInterval] using h
  | pyInt n =>
    simpa [executorInterval] using h
  | pyStr s =>
    simpa [executorInterval] using h

/-- Witness for C10 at the concrete numeric string "30": float("30") is 30
and the Executor stores 30. -/
theorem executor_interval_is_float_conversion_witness :
    pythonFloat (PyVal.pyStr "30") = some 30
    ∧ executorInterval (PyVal.pyStr "30") = some 30 := by
  refine ⟨by decide, executor_interval_is_float_conversion _ _ (by decide)⟩

/-- Outcome of one invocation of the bound job callback. -/
inductive JobOutcome where
  | ok
  | pluginError (msg : String)
  | otherError (msg : String)
deriving DecidableEq

/-- Observable events of Executor.run. -/
inductive RunEvent where
  | sleep
  | invoke
  | logError (msg : String)
  | raiseWrapped (msg : String)
  | raiseOther (msg : String)
deriving DecidableEq

/-- Executor.run (sr71.py lines 312-320) as an event trace, driven by the
outcomes the successive callback invocations would produce (the list also
bounds the infinite while-loop: an empty remainder means the loop is still
running).  Each iteration sleeps for the interval and then invokes the
callback once; on BlackbirdPluginError the error is logged at error
severity and a wrapped BlackbirdError is raised, which ends the loop; any
other exception propagates without logging; on success the loop
continues.  The exception classes BlackbirdPluginError and BlackbirdError
are imported at sr71.py lines 15-16 from modules whose files are not part
of this tree; they are modelled from the spec as two distinguished error
kinds, which is all the run loop observes of them. -/
def executorRun : List JobOutcome → List RunEvent
  | [] => []
  | o :: rest =>
    RunEvent.sleep :: RunEvent.invoke ::
      match o with
      | .ok => executorRun rest
      | .pluginError m => [RunEvent.logError m, RunEvent.raiseWrapped m]
      | .otherError m => [RunEvent.raiseOther m]

/-- C4: when the callback raises the distinguished plugin-error kind after
n successful cycles, the Worker's whole trace is the n successful
sleep-invoke cycles, one further sleep and invoke, then a log at error
severity followed by the wrapped fatal raise — whatever outcomes would
have followed are never reached, so the callback is not re-invoked in the
same cycle and the sleep/execute loop does not continue after the error. -/
theorem executor_plugin_error_terminates (n : Nat) (m : String)
    (rest : List JobOutcome) :
    executorRun (List.replicate n JobOutcome.ok ++ JobOutcome.pluginError m :: rest)
      = (List.replicate n [RunEvent.sleep, RunEvent.invoke]).flatten
          ++ [RunEvent.sleep, RunEvent.invoke, RunEvent.logError m,
              RunEvent.raiseWrapped m] := by
  induction n with
  | zero => rfl
  | succ k ih =>
    simp only [List.replicate_succ, List.cons_append, List.flatten_cons, executorRun,
      List.append_eq]
    rw [ih]
    simp

/-- The absolute times at which Executor.run invokes the callback, given
the thread start time, the stored interval, and the durations of the
successive callback invocations (the duration list also bounds the
infinite loop).  Mirrors sr71.py lines 312-317: every iteration first
sleeps the full interval, and only then invokes the callback. -/
def executorInvokeTimes (start interval : ℚ) : List ℚ → List ℚ
  | [] => []
  | d :: ds =>
    (start + interval) :: executorInvokeTimes (start + interval + d) interval ds

/-- Every invocation time is at least one full interval after the start,
provided the interval and the callback durations are nonnegative. -/
theorem executorInvokeTimes_lower_bound (interval : ℚ) (ds : List ℚ)
    (hi : 0 ≤ interval) (hd : ∀ d ∈ ds, 0 ≤ d) :
    ∀ start : ℚ, ∀ t ∈ executorInvokeTimes start interval ds, start + interval ≤ t := by
  induction ds with
  | nil =>
    intro start t ht
    simp [executorInvokeTimes] at ht
  | cons d ds ih =>
    intro start t ht
    have hd0 : 0 ≤ d := hd d (by simp)
    have hdtail : ∀ x ∈ ds, 0 ≤ x := fun x hx => hd x (by simp [hx])
    simp only [executorInvokeTimes, List.mem_cons] at ht
    rcases ht with rfl | ht
    · exact le_refl _
    · have := ih hdtail (start + interval + d) t ht
      linarith

/-- C6: with a nonnegative interval and nonnegative callback durations,
every callback invocation of a Worker happens no earlier than one full
interval after the Worker starts, and the first invocation happens exactly
at start + interval — never immediately, because run sleeps for the full
interval before each invocation. -/
theorem executor_first_invocation_delayed (start interval : ℚ) (ds : List ℚ)
    (hi : 0 ≤ interval) (hd : ∀ d ∈ ds, 0 ≤ d) :
    (∀ t ∈ executorInvokeTimes start interval ds, start + interval ≤ t)
    ∧ ((executorInvokeTimes start interval ds).head? = some (start + interval)
        ∨ executorInvokeTimes start interval ds = []) := by
  constructor
  · exact executorInvokeTimes_lower_bound interval ds hi hd start
  · cases ds with
    | nil => exact Or.inr rfl
    | cons d ds => exact Or.inl rfl

/-- Witness for C6 at start 0, interval 5 and two invocations of duration
1 and 2: both invocation times are at least 5 and the first is exactly 5. -/
theorem executor_first_invocation_delayed_witness :
    (∀ t ∈ executorInvokeTimes 0 5 [1, 2], (0 : ℚ) + 5 ≤ t)
    ∧ ((executorInvokeTimes 0 5 [1, 2]).head? = some ((0 : ℚ) + 5)
        ∨ executorInvokeTimes 0 5 [1, 2] = []) :=
  executor_first_invocation_delayed 0 5 [1, 2] (by norm_num)
    (by intro d hd; simp at hd; rcases hd with rfl | rfl <;> norm_num)

/-! ## Job descriptor resolution (sr71.py lines 168-289) -/

/-- The options of one configuration section, projected onto the keys
job_factory reads: the module option and the two interval options. -/
structure SectionOptions where
  module : Option String
  interval : Option PyVal
  lld_interval : Option PyVal
deriving DecidableEq

/-- The global-section options read by JobCreator: the default interval
options and the queue capacity. -/
structure GlobalOptions where
  interval : Option PyVal
  lld_interval : Option PyVal
  max_queue_length : Nat
deriving DecidableEq

/-- A plugin class as job_factory observes it: whether its constructor
declares a stats_queue argument (the inspect.getargspec check at sr71.py
lines 216-219), which of the three recognized callbacks its instances
expose, and whether construction raises (some message) or succeeds
(none). -/
structure PluginClass where
  accepts_stats_queue : Bool
  has_looped_method : Bool
  has_build_items : Bool
  has_build_discovery_items : Bool
  init_raises : Option String
deriving DecidableEq

/-- The three recognized callback kinds. -/
inductive JobKind where
  | looped_method
  | build_items
  | build_discovery_items
deriving DecidableEq

/-- The Python attribute name of a callback kind. -/
def JobKind.methodName : JobKind → String
  | .looped_method => "looped_method"
  | .build_items => "build_items"
  | .build_discovery_items => "build_discovery_items"

/-- The derived job name '-'.join([section, method]) used as the jobs dict
key and as the executor thread name (sr71.py lines 241, 254, 272). -/
def deriveName (sec : String) (k : JobKind) : String :=
  sec ++ "-" ++ k.methodName

/-- One entry of the jobs dict built by job_factory: the bound method,
identified by the section whose plugin instance owns it together with the
callback kind, and the resolved interval value. -/
structure JobEntry where
  method : String × JobKind
  interval : PyVal
deriving DecidableEq

/-- Exceptions the startup path can raise: the distinguished
BlackbirdError, a KeyError from a dict lookup, or any other exception. -/
inductive PyExc where
  | blackbirdError (msg : String)
  | keyError (key : String)
  | otherError (msg : String)
deriving DecidableEq

/-- Python dict assignment jobs[name] = entry, on a dict modelled as its
insertion-ordered association list: an existing key keeps its position and
receives the new value, a new key is appended at the end. -/
def dictInsert (d : List (String × JobEntry)) (k : String) (v : JobEntry) :
    List (String × JobEntry) :=
  if d.any fun p => p.1 == k then
    d.map fun p => if p.1 == k then (k, v) else p
  else d ++ [(k, v)]

/-- Interval resolution for looped_method and build_items jobs (sr71.py
lines 242-246 and 255-259): start from the default 60, overridden by the
section's interval option if present, else by the global interval
option. -/
def resolveInterval (options : SectionOptions) (g : GlobalOptions) : PyVal :=
  match options.interval with
  | some v => v
  | none =>
    match g.interval with
    | some v => v
    | none => PyVal.pyInt 60

/-- Interval resolution for build_discovery_items jobs (sr71.py lines
273-277): default 600, overridden by the section's lld_interval option if
present, else by the global lld_interval option. -/
def resolveLldInterval (options : SectionOptions) (g : GlobalOptions) : PyVal :=
  match options.lld_interval with
  | some v => v
  | none =>
    match g.lld_interval with
    | some v => v
    | none => PyVal.pyInt 600

/-- Processing of one non-global config section inside job_factory
(sr71.py lines 205-287): read the module option (a missing key raises
KeyError), look the plugin class up in the registry (an unknown name
raises KeyError), construct the instance (a raising constructor
propagates its own exception, unwrapped), then add one jobs entry per
recognized callback through plain dict assignment. -/
def processSection (g : GlobalOptions) (plugins : String → Option PluginClass)
    (jobs : List (String × JobEntry)) (sec : String) (options : SectionOptions) :
    Except PyExc (List (String × JobEntry)) :=
  match options.module with
  | none => Except.error (PyExc.keyError "module")
  | some plugin_name =>
  match plugins plugin_name with
  | none => Except.error (PyExc.keyError plugin_name)
  | some job_kls =>
  match job_kls.init_raises with
  | some msg => Except.error (PyExc.otherError msg)
  | none =>
    let jobs1 := if job_kls.has_looped_method then
        dictInsert jobs (deriveName sec JobKind.looped_method)
          { method := (sec, JobKind.looped_method)
            interval := resolveInterval options g }
      else jobs
    let jobs2 := if job_kls.has_build_items then
        dictInsert jobs1 (deriveName sec JobKind.build_items)
          { method := (sec, JobKind.build_items)
            interval := resolveInterval options g }
      else jobs1
    let jobs3 := if job_kls.has_build_discovery_items then
        dictInsert jobs2 (deriveName sec JobKind.build_discovery_items)
          { method := (sec, JobKind.build_discovery_items)
            interval := resolveLldInterval options g }
      else jobs2
    Except.ok jobs3

/-- The whole configuration: the sections in dict iteration order, plus
the global section that job_factory consults for defaults. -/
structure Config where
  sections : List (String × SectionOptions)
  globalSec : GlobalOptions

/-- The fold of JobCreator.job_factory (sr71.py lines 185-289) over the
remaining sections, threading the jobs dict; the global section is
skipped. -/
def jobFactoryAux (g : GlobalOptions) (plugins : String → Option PluginClass) :
    List (String × SectionOptions) → List (String × JobEntry) →
    Except PyExc (List (String × JobEntry))
  | [], jobs => Except.ok jobs
  | (sec, options) :: rest, jobs =>
    if sec = "global" then jobFactoryAux g plugins rest jobs
    else
      match processSection g plugins jobs sec options with
      | Except.error e => Except.error e
      | Except.ok jobs2 => jobFactoryAux g plugins rest jobs2

/-- JobCreator.job_factory (sr71.py lines 185-289): iterate over all
config sections starting from an empty jobs dict. -/
def jobFactory (config : Config) (plugins : String → Option PluginClass) :
    Except PyExc (List (String × JobEntry)) :=
  jobFactoryAux config.globalSec plugins config.sections []

/-- Modelled from the spec's words, for comparison with the code's
resolution: the effective interval is the section-level option S if
present, else the global-level option G if present, else the kind default
D. -/
def specEffectiveInterval (S G : Option PyVal) (D : PyVal) : PyVal :=
  S.getD (G.getD D)

/-- The code's metric/legacy interval resolution agrees with the spec's
precedence rule at default 60. -/
theorem resolveInterval_eq_spec (options : SectionOptions) (g : GlobalOptions) :
    resolveInterval options g
      = specEffectiveInterval options.interval g.interval (PyVal.pyInt 60) := by
  unfold resolveInterval specEffectiveInterval
  cases options.interval <;> cases g.interval <;> rfl

/-- The code's discovery interval resolution agrees with the spec's
precedence rule at default 600. -/
theorem resolveLldInterval_eq_spec (options : SectionOptions) (g : GlobalOptions) :
    resolveLldInterval options g
      = specEffectiveInterval options.lld_interval g.lld_interval (PyVal.pyInt 600) := by
  unfold resolveLldInterval specEffectiveInterval
  cases options.lld_interval <;> cases g.lld_interval <;> rfl

/-- Membership in a dict after assignment comes from the old dict or is
the assigned pair. -/
theorem mem_dictInsert (d : List (String × JobEntry)) (k : String) (v : JobEntry)
    (p : String × JobEntry) (h : p ∈ dictInsert d k v) : p ∈ d ∨ p = (k, v) := by
  unfold dictInsert at h
  by_cases hc : (d.any fun p => p.1 == k) = true
  · rw [if_pos hc] at h
    rcases List.mem_map.mp h with ⟨p0, hp0, heq⟩
    by_cases hk : (p0.1 == k) = true
    · right
      rw [if_pos hk] at heq
      exact heq.symm
    · left
      rw [if_neg hk] at heq
      exact heq ▸ hp0
  · rw [if_neg hc] at h
    rcases List.mem_append.mp h with hin | hin
    · exact Or.inl hin
    · right
      simpa using hin

/-- Membership in a conditionally updated dict. -/
theorem mem_dictInsert_if (b : Bool) (d : List (String × JobEntry)) (k : String)
    (v : JobEntry) (p : String × JobEntry)
    (h : p ∈ (if b then dictInsert d k v else d)) : p ∈ d ∨ p = (k, v) := by
  cases b
  · exact Or.inl (by simpa using h)
  · exact mem_dictInsert d k v p (by simpa using h)

/-- Every entry of the dict returned by processSection either was already
present or is a freshly built entry of this section, with the interval
resolved by the kind's resolution rule. -/
theorem processSection_mem (g : GlobalOptions) (plugins : String → Option PluginClass)
    (acc : List (String × JobEntry)) (sec : String) (o : SectionOptions)
    (jobs1 : List (String × JobEntry))
    (h : processSection g plugins acc sec o = Except.ok jobs1) :
    ∀ p ∈ jobs1, p ∈ acc ∨
      (p.2.method.1 = sec ∧
        p.2.interval = (match p.2.method.2 with
          | JobKind.build_discovery_items => resolveLldInterval o g
          | _ => resolveInterval o g)) := by
  intro p hp
  cases hm : o.module with
  | none => simp [processSection, hm] at h
  | some m =>
    cases hk : plugins m with
    | none => simp [processSection, hm, hk] at h
    | some kls =>
      cases hr : kls.init_raises with
      | some msg => simp [processSection, hm, hk, hr] at h
      | none =>
        simp only [processSection, hm, hk, hr, Except.ok.injEq] at h
        subst h
        rcases mem_dictInsert_if _ _ _ _ p hp with hp2 | hpnew
        · rcases mem_dictInsert_if _ _ _ _ p hp2 with hp3 | hpnew
          · rcases mem_dictInsert_if _ _ _ _ p hp3 with hp4 | hpnew
            · exact Or.inl hp4
            · subst hpnew
              exact Or.inr ⟨rfl, rfl⟩
          · subst hpnew
            exact Or.inr ⟨rfl, rfl⟩
        · subst hpnew
          exact Or.inr ⟨rfl, rfl⟩

/-- Every entry of the dict produced by the job_factory fold either was in
the starting dict or stems from one of the folded sections, with its
interval resolved by that section's options. -/
theorem jobFactoryAux_mem (g : GlobalOptions) (plugins : String → Option PluginClass) :
    ∀ (secs : List (String × SectionOptions)) (acc jobs : List (String × JobEntry)),
      jobFactoryAux g plugins secs acc = Except.ok jobs →
      ∀ p ∈ jobs, p ∈ acc ∨
        ∃ sec options, (sec, options) ∈ secs ∧ p.2.method.1 = sec ∧
          p.2.interval = (match p.2.method.2 with
            | JobKind.build_discovery_items => resolveLldInterval options g
            | _ => resolveInterval options g) := by
  intro secs
  induction secs with
  | nil =>
    intro acc jobs h p hp
    simp only [jobFactoryAux, Except.ok.injEq] at h
    exact Or.inl (h ▸ hp)
  | cons so rest ih =>
    obtain ⟨sec, options⟩ := so
    intro acc jobs h p hp
    by_cases hg : sec = "global"
    · rw [jobFactoryAux, if_pos hg] at h
      rcases ih acc jobs h p hp with hin | ⟨s, o, hso, hrest⟩
      · exact Or.inl hin
      · exact Or.inr ⟨s, o, List.mem_cons_of_mem _ hso, hrest⟩
    · rw [jobFactoryAux, if_neg hg] at h
      cases hps : processSection g plugins acc sec options with
      | error e =>
        rw [hps] at h
        simp at h
      | ok jobs2 =>
        rw [hps] at h
        rcases ih jobs2 jobs h p hp with hin | ⟨s, o, hso, hrest⟩
        · rcases processSection_mem g plugins acc sec options jobs2 hps p hin with
            hacc | hnew
          · exact Or.inl hacc
          · exact Or.inr ⟨sec, options, List.mem_cons_self _ _, hnew⟩
        · exact Or.inr ⟨s, o, List.mem_cons_of_mem _ hso, hrest⟩

/-- C2: for every job produced by job descriptor resolution, the effective
interval follows the spec's precedence rule — the section-level option if
present, else the global-level option, else the kind default, which is 60
for looped_method (legacy) and build_items (metric) jobs and 600 for
build_discovery_items (discovery) jobs — for every combination of option
presence, since section and global options are arbitrary here. -/
theorem jobfactory_interval_resolution (config : Config)
    (plugins : String → Option PluginClass) (jobs : List (String × JobEntry))
    (h : jobFactory config plugins = Except.ok jobs) :
    ∀ p ∈ jobs, ∃ sec options, (sec, options) ∈ config.sections ∧
      p.2.method.1 = sec ∧
      p.2.interval = (match p.2.method.2 with
        | JobKind.build_discovery_items =>
          specEffectiveInterval options.lld_interval config.globalSec.lld_interval
            (PyVal.pyInt 600)
        | _ =>
          specEffectiveInterval options.interval config.globalSec.interval
            (PyVal.pyInt 60)) := by
  intro p hp
  rcases jobFactoryAux_mem config.globalSec plugins config.sections [] jobs h p hp with
    hin | ⟨sec, options, hmem, h1, h2⟩
  · simp at hin
  · refine ⟨sec, options, hmem, h1, ?_⟩
    rw [h2]
    cases hkind : p.2.method.2 <;>
      simp [resolveInterval_eq_spec, resolveLldInterval_eq_spec]

/-- The plugin class of the C2 witness configuration: a metric callback
and a discovery callback, constructor succeeding. -/
def c2Plugin : PluginClass :=
  { accepts_stats_queue := false, has_looped_method := false,
    has_build_items := true, has_build_discovery_items := true,
    init_raises := none }

/-- The C2 witness configuration: one section with a section-level
interval and no section-level lld_interval; the global section has no
interval but an lld_interval. -/
def c2Config : Config :=
  { sections := [("sec1",
      { module := some "mod", interval := some (PyVal.pyInt 30),
        lld_interval := none })]
    globalSec :=
      { interval := none, lld_interval := some (PyVal.pyInt 700),
        max_queue_length := 10 } }

/-- The registry of the C2 witness configuration. -/
def c2Plugins : String → Option PluginClass :=
  fun m => if m = "mod" then some c2Plugin else none

/-- The metric entry job_factory produces for the C2 witness. -/
def c2Entry : JobEntry :=
  { method := ("sec1", JobKind.build_items), interval := PyVal.pyInt 30 }

/-- The discovery entry job_factory produces for the C2 witness. -/
def c2EntryLld : JobEntry :=
  { method := ("sec1", JobKind.build_discovery_items), interval := PyVal.pyInt 700 }

/-- Witness for C2: on the concrete witness configuration the produced
metric job carries the section-level interval 30 (present there), matching
the spec's precedence rule. -/
theorem jobfactory_interval_resolution_witness :
    ∃ sec options, (sec, options) ∈ c2Config.sections ∧
      (("sec1-build_items", c2Entry) : String × JobEntry).2.method.1 = sec ∧
      (("sec1-build_items", c2Entry) : String × JobEntry).2.interval
        = (match (("sec1-build_items", c2Entry) : String × JobEntry).2.method.2 with
          | JobKind.build_discovery_items =>
            specEffectiveInterval options.lld_interval c2Config.globalSec.lld_interval
              (PyVal.pyInt 600)
          | _ =>
            specEffectiveInterval options.interval c2Config.globalSec.interval
              (PyVal.pyInt 60)) :=
  jobfactory_interval_resolution c2Config c2Plugins
    [("sec1-build_items", c2Entry), ("sec1-build_discovery_items", c2EntryLld)]
    (by rfl) ("sec1-build_items", c2Entry) (by decide)

/-- Two list appends differ when the appended tails differ at some
position counted from the right end. -/
theorem append_ne_of_rev_get_ne {α : Type} (l1 l2 a b : List α) (i : Nat)
    (hia : i < a.length) (hib : i < b.length)
    (hne : a.reverse.get? i ≠ b.reverse.get? i) :
    l1 ++ a ≠ l2 ++ b := by
  intro h
  have h2 := congrArg (fun l => List.get? l.reverse i) h
  simp only [List.reverse_append] at h2
  rw [List.get?_append (by simpa using hia),
    List.get?_append (by simpa using hib)] at h2
  exact hne h2

/-- The derived job name determines both the section and the callback
kind: the three method-name suffixes are pairwise non-overlapping at the
end of the string. -/
theorem deriveName_inj (s1 s2 : String) (k1 k2 : JobKind)
    (h : deriveName s1 k1 = deriveName s2 k2) : s1 = s2 ∧ k1 = k2 := by
  have hd : s1.data ++ ('-' :: k1.methodName.data)
      = s2.data ++ ('-' :: k2.methodName.data) := by
    have h2 := congrArg String.data h
    simpa [deriveName, String.data_append] using h2
  cases k1 <;> cases k2
  · exact ⟨String.ext (List.append_cancel_right hd), rfl⟩
  · exact absurd hd (append_ne_of_rev_get_ne _ _ _ _ 0 (by decide) (by decide) (by decide))
  · exact absurd hd (append_ne_of_rev_get_ne _ _ _ _ 0 (by decide) (by decide) (by decide))
  · exact absurd hd (append_ne_of_rev_get_ne _ _ _ _ 0 (by decide) (by decide) (by decide))
  · exact ⟨String.ext (List.append_cancel_right hd), rfl⟩
  · exact absurd hd (append_ne_of_rev_get_ne _ _ _ _ 6 (by decide) (by decide) (by decide))
  · exact absurd hd (append_ne_of_rev_get_ne _ _ _ _ 0 (by decide) (by decide) (by decide))
  · exact absurd hd (append_ne_of_rev_get_ne _ _ _ _ 6 (by decide) (by decide) (by decide))
  · exact ⟨String.ext (List.append_cancel_right hd), rfl⟩

/-- Derived names of distinct kinds differ, whatever the section. -/
theorem deriveName_kind_ne (sec : String) (k1 k2 : JobKind) (hne : k1 ≠ k2) :
    deriveName sec k1 ≠ deriveName sec k2 :=
  fun hc => hne (deriveName_inj sec sec k1 k2 hc).2

/-- Dict assignment under a key absent from the dict appends the pair. -/
theorem dictInsert_fresh (d : List (String × JobEntry)) (k : String) (v : JobEntry)
    (h : ∀ p ∈ d, p.1 ≠ k) : dictInsert d k v = d ++ [(k, v)] := by
  have hc : (d.any fun p => p.1 == k) = false := by
    rw [List.any_eq_false]
    intro p hp
    simpa using h p hp
  simp [dictInsert, hc]

/-- The conditional dict assignments of processSection, under a fresh key,
append their conditional entry. -/
theorem dictInsertIf_fresh (b : Bool) (d : List (String × JobEntry)) (k : String)
    (v : JobEntry) (h : ∀ p ∈ d, p.1 ≠ k) :
    (if b then dictInsert d k v else d) = d ++ (if b then [(k, v)] else []) := by
  cases b
  · simp
  · simpa using dictInsert_fresh d k v h

/-- Freshness extends over an append. -/
theorem fresh_append (d1 d2 : List (String × JobEntry)) (k : String)
    (h1 : ∀ p ∈ d1, p.1 ≠ k) (h2 : ∀ p ∈ d2, p.1 ≠ k) :
    ∀ p ∈ d1 ++ d2, p.1 ≠ k := by
  intro p hp
  rcases List.mem_append.mp hp with h | h
  · exact h1 p h
  · exact h2 p h

/-- Freshness over a conditional singleton with a different key. -/
theorem fresh_ifsingle (b : Bool) (k1 k : String) (e : JobEntry) (hne : k1 ≠ k) :
    ∀ p ∈ (if b then [(k1, e)] else ([] : List (String × JobEntry))), p.1 ≠ k := by
  intro p hp
  cases b
  · simp at hp
  · simp at hp
    rw [hp]
    exact hne

/-- The descriptors one section contributes, in emission order: one per
recognized callback of the constructed plugin instance, with the resolved
intervals. -/
def sectionEntries (g : GlobalOptions) (kls : PluginClass) (sec : String)
    (options : SectionOptions) : List (String × JobEntry) :=
  (if kls.has_looped_method then
      [(deriveName sec JobKind.looped_method,
        { method := (sec, JobKind.looped_method)
          interval := resolveInterval options g })]
    else []) ++
  (if kls.has_build_items then
      [(deriveName sec JobKind.build_items,
        { method := (sec, JobKind.build_items)
          interval := resolveInterval options g })]
    else []) ++
  (if kls.has_build_discovery_items then
      [(deriveName sec JobKind.build_discovery_items,
        { method := (sec, JobKind.build_discovery_items)
          interval := resolveLldInterval options g })]
    else [])

/-- The append-only reading of job_factory: every section's descriptors
concatenated in iteration order, with no dict-overwrite step at all. -/
def expectedTable (g : GlobalOptions) (plugins : String → Option PluginClass) :
    List (String × SectionOptions) → List (String × JobEntry)
  | [] => []
  | (sec, o) :: rest =>
    (if sec = "global" then []
     else
       match o.module with
       | none => []
       | some m =>
         match plugins m with
         | none => []
         | some kls =>
           match kls.init_raises with
           | some _ => []
           | none => sectionEntries g kls sec o) ++ expectedTable g plugins rest

/-- Every key of a section's descriptor list is a derived name of that
section. -/
theorem sectionEntries_keys (g : GlobalOptions) (kls : PluginClass) (sec : String)
    (o : SectionOptions) :
    ∀ p ∈ sectionEntries g kls sec o, ∃ k : JobKind, p.1 = deriveName sec k := by
  intro p hp
  unfold sectionEntries at hp
  rcases List.mem_append.mp hp with hp1 | hp1
  · rcases List.mem_append.mp hp1 with hp2 | hp2
    · refine ⟨JobKind.looped_method, ?_⟩
      simp at hp2
      rw [hp2.2]
    · refine ⟨JobKind.build_items, ?_⟩
      simp at hp2
      rw [hp2.2]
  · refine ⟨JobKind.build_discovery_items, ?_⟩
    simp at hp1
    rw [hp1.2]

/-- The keys of a section's descriptor list are pairwise distinct. -/
theorem sectionEntries_keys_nodup (g : GlobalOptions) (kls : PluginClass)
    (sec : String) (o : SectionOptions) :
    ((sectionEntries g kls sec o).map Prod.fst).Nodup := by
  have h12 := deriveName_kind_ne sec JobKind.looped_method JobKind.build_items
    (by decide)
  have h13 := deriveName_kind_ne sec JobKind.looped_method
    JobKind.build_discovery_items (by decide)
  have h23 := deriveName_kind_ne sec JobKind.build_items
    JobKind.build_discovery_items (by decide)
  unfold sectionEntries
  cases hb1 : kls.has_looped_method <;> cases hb2 : kls.has_build_items <;>
    cases hb3 : kls.has_build_discovery_items <;>
    simp [hb1, hb2, hb3, List.nodup_cons] <;> tauto

/-- When the three derived names of the section are fresh in the
accumulated dict, processSection appends exactly the section's
descriptors, and its lookups succeeded. -/
theorem processSection_fresh (g : GlobalOptions)
    (plugins : String → Option PluginClass) (acc : List (String × JobEntry))
    (sec : String) (o : SectionOptions) (jobs1 : List (String × JobEntry))
    (hfresh : ∀ k : JobKind, ∀ p ∈ acc, p.1 ≠ deriveName sec k)
    (h : processSection g plugins acc sec o = Except.ok jobs1) :
    ∃ m kls, o.module = some m ∧ plugins m = some kls ∧ kls.init_raises = none ∧
      jobs1 = acc ++ sectionEntries g kls sec o := by
  cases hm : o.module with
  | none => simp [processSection, hm] at h
  | some m =>
  cases hk : plugins m with
  | none => simp [processSection, hm, hk] at h
  | some kls =>
  cases hr : kls.init_raises with
  | some msg => simp [processSection, hm, hk, hr] at h
  | none =>
    refine ⟨m, kls, rfl, hk, hr, ?_⟩
    simp only [processSection, hm, hk, hr, Except.ok.injEq] at h
    rw [← h]
    rw [dictInsertIf_fresh kls.has_looped_method acc _ _
      (hfresh JobKind.looped_method)]
    rw [dictInsertIf_fresh kls.has_build_items _ _ _
      (fresh_append _ _ _ (hfresh JobKind.build_items)
        (fresh_ifsingle _ _ _ _
          (deriveName_kind_ne sec JobKind.looped_method JobKind.build_items
            (by decide))))]
    rw [dictInsertIf_fresh kls.has_build_discovery_items _ _ _
      (fresh_append _ _ _
        (fresh_append _ _ _ (hfresh JobKind.build_discovery_items)
          (fresh_ifsingle _ _ _ _
            (deriveName_kind_ne sec JobKind.looped_method
              JobKind.build_discovery_items (by decide))))
        (fresh_ifsingle _ _ _ _
          (deriveName_kind_ne sec JobKind.build_items
            JobKind.build_discovery_items (by decide))))]
    simp [sectionEntries, List.append_assoc]

/-- Characterization of the job_factory fold on a section list with
pairwise distinct names: the result is the accumulated dict followed by
every section's descriptors (no assignment ever replaces an entry), and
its keys are pairwise distinct.  The second hypothesis is the fold
invariant: accumulated keys are derived names of sections no longer among
the remaining ones. -/
theorem jobFactoryAux_append_char (g : GlobalOptions)
    (plugins : String → Option PluginClass) :
    ∀ (secs : List (String × SectionOptions)) (acc jobs : List (String × JobEntry)),
      (secs.map Prod.fst).Nodup →
      (∀ p ∈ acc, ∃ s k, p.1 = deriveName s k ∧ s ∉ secs.map Prod.fst) →
      (acc.map Prod.fst).Nodup →
      jobFactoryAux g plugins secs acc = Except.ok jobs →
      jobs = acc ++ expectedTable g plugins secs ∧ (jobs.map Prod.fst).Nodup := by
  intro secs
  induction secs with
  | nil =>
    intro acc jobs _ _ hnacc h
    simp only [jobFactoryAux, Except.ok.injEq] at h
    subst h
    exact ⟨by simp [expectedTable], hnacc⟩
  | cons so rest ih =>
    obtain ⟨sec, o⟩ := so
    intro acc jobs hnd hkeys hnacc h
    rw [List.map_cons, List.nodup_cons] at hnd
    obtain ⟨hsec_not, hnd_rest⟩ := hnd
    by_cases hg : sec = "global"
    · rw [jobFactoryAux, if_pos hg] at h
      have hkeys2 : ∀ p ∈ acc, ∃ s k, p.1 = deriveName s k ∧ s ∉ rest.map Prod.fst := by
        intro p hp
        obtain ⟨s, k, h1, h2⟩ := hkeys p hp
        exact ⟨s, k, h1, fun hc => h2 (List.mem_cons_of_mem _ hc)⟩
      obtain ⟨heq, hnd2⟩ := ih acc jobs hnd_rest hkeys2 hnacc h
      refine ⟨?_, hnd2⟩
      rw [heq]
      simp [expectedTable, hg]
    · rw [jobFactoryAux, if_neg hg] at h
      cases hps : processSection g plugins acc sec o with
      | error e =>
        rw [hps] at h
        simp at h
      | ok jobs2 =>
        rw [hps] at h
        have hfresh : ∀ k : JobKind, ∀ p ∈ acc, p.1 ≠ deriveName sec k := by
          intro k p hp hc
          obtain ⟨s, k2, h1, h2⟩ := hkeys p hp
          rw [h1] at hc
          obtain ⟨hs, _⟩ := deriveName_inj s sec k2 k hc
          exact h2 (by rw [hs]; exact List.mem_cons_self _ _)
        obtain ⟨m, kls, hm, hk, hr, heq2⟩ :=
          processSection_fresh g plugins acc sec o jobs2 hfresh hps
        have hkeys2 : ∀ p ∈ acc ++ sectionEntries g kls sec o,
            ∃ s k, p.1 = deriveName s k ∧ s ∉ rest.map Prod.fst := by
          intro p hp
          rcases List.mem_append.mp hp with hin | hin
          · obtain ⟨s, k, h1, h2⟩ := hkeys p hin
            exact ⟨s, k, h1, fun hc => h2 (List.mem_cons_of_mem _ hc)⟩
          · obtain ⟨k, h1⟩ := sectionEntries_keys g kls sec o p hin
            exact ⟨sec, k, h1, hsec_not⟩
        have hnacc2 : ((acc ++ sectionEntries g kls sec o).map Prod.fst).Nodup := by
          rw [List.map_append, List.nodup_append]
          refine ⟨hnacc, sectionEntries_keys_nodup g kls sec o, ?_⟩
          intro a ha hb
          rcases List.mem_map.mp ha with ⟨p, hp, hpa⟩
          rcases List.mem_map.mp hb with ⟨p2, hp2, hpb⟩
          obtain ⟨s, k2, h1, h2⟩ := hkeys p hp
          obtain ⟨k, h3⟩ := sectionEntries_keys g kls sec o p2 hp2
          have : deriveName s k2 = deriveName sec k := by
            rw [← h1, ← h3, hpa, hpb]
          obtain ⟨hs, _⟩ := deriveName_inj s sec k2 k this
          exact h2 (by rw [hs]; exact List.mem_cons_self _ _)
        rw [heq2] at h
        obtain ⟨heq3, hnd3⟩ := ih _ jobs hnd_rest hkeys2 hnacc2 h
        refine ⟨?_, hnd3⟩
        rw [heq3]
        simp [expectedTable, hg, hm, hk, hr, List.append_assoc]

/-- C3 amended: job descriptor resolution contains no duplicate-name
check; when the section names are pairwise distinct — which is forced by
the dict shape of the Python configuration — the derived names are
necessarily pairwise distinct, every emitted descriptor survives into the
returned table (the table is exactly the concatenation of each section's
descriptors in iteration order), and no overwriting occurs; only an
iteration that presented the same derived name twice would be silently
overwritten, with no error (see the counterexample). -/
theorem jobfactory_distinct_sections_never_overwrite (config : Config)
    (plugins : String → Option PluginClass) (jobs : List (String × JobEntry))
    (hnd : (config.sections.map Prod.fst).Nodup)
    (h : jobFactory config plugins = Except.ok jobs) :
    jobs = expectedTable config.globalSec plugins config.sections
    ∧ (jobs.map Prod.fst).Nodup := by
  have hmain := jobFactoryAux_append_char config.globalSec plugins config.sections
    [] jobs hnd (by intro p hp; simp at hp) (by simp) h
  simpa using hmain

/-- The plugin class of the C3 configurations: a single metric callback,
constructor succeeding. -/
def c3Plugin : PluginClass :=
  { accepts_stats_queue := false, has_looped_method := false,
    has_build_items := true, has_build_discovery_items := false,
    init_raises := none }

/-- The duplicate-name input of the C3 counterexample: the section
iteration presents the name s twice with different options, so both
iterations derive the job name s-build_items.  A Python dict
configuration cannot itself hold two equal section keys; this input
drives the jobs-dict assignment path that any duplicate derived name
would take. -/
def c3Config : Config :=
  { sections :=
      [("s", { module := some "m1", interval := none, lld_interval := none }),
       ("s", { module := some "m2", interval := some (PyVal.pyInt 99),
               lld_interval := none })]
    globalSec := { interval := none, lld_interval := none, max_queue_length := 10 } }

/-- The registry of the C3 configurations. -/
def c3Plugins : String → Option PluginClass :=
  fun m => if m = "m1" then some c3Plugin
    else if m = "m2" then some c3Plugin else none

/-- C3 counterexample: on the duplicate-derived-name input, job_factory
raises no error and returns a table in which the later descriptor
(interval 99) has silently replaced the earlier one (whose resolved
interval was the default 60): resolution neither rejects the
configuration with a descriptive error nor preserves the earlier
descriptor, contradicting the claim. -/
theorem jobfactory_collision_silently_overwrites :
    jobFactory c3Config c3Plugins
      = Except.ok [("s-build_items",
          { method := ("s", JobKind.build_items), interval := PyVal.pyInt 99 })] := by
  rfl

/-- The distinct-section configuration of the C3 witness. -/
def c3WConfig : Config :=
  { sections :=
      [("a", { module := some "m1", interval := none, lld_interval := none }),
       ("b", { module := some "m2", interval := none, lld_interval := none })]
    globalSec := { interval := none, lld_interval := none, max_queue_length := 10 } }

/-- Witness for the amended C3 theorem at a concrete two-section
configuration with distinct names: the returned table is the plain
concatenation of both sections' descriptors and its keys are distinct. -/
theorem jobfactory_distinct_sections_never_overwrite_witness :
    ([("a-build_items",
        { method := ("a", JobKind.build_items), interval := PyVal.pyInt 60 }),
      ("b-build_items",
        { method := ("b", JobKind.build_items), interval := PyVal.pyInt 60 })]
      : List (String × JobEntry))
      = expectedTable c3WConfig.globalSec c3Plugins c3WConfig.sections
    ∧ ((([("a-build_items",
        { method := ("a", JobKind.build_items), interval := PyVal.pyInt 60 }),
      ("b-build_items",
        { method := ("b", JobKind.build_items), interval := PyVal.pyInt 60 })])
      : List (String × JobEntry)).map Prod.fst).Nodup :=
  jobfactory_distinct_sections_never_overwrite c3WConfig c3Plugins _
    (by decide) (by rfl)

/-! ## Startup and the top-level entry point (sr71.py lines 25-57, 108-118,
323-332) -/

/-- String rendering of an exception, as used when BlackbirdError wraps
another error. -/
def describeExc : PyExc → String
  | .blackbirdError m => m
  | .keyError k => k
  | .otherError m => m

/-- Modelled from the spec: the validation performed by
blackbird/utils/configread (whose file is not part of this tree) while
ConfigReader reads the configuration — every non-global section must
carry a module option naming a known plugin; a violation raises.  The
precise exception class configread raises does not matter, because
_get_config wraps every exception uniformly. -/
def configreadValidate (config : Config) (plugins : String → Option PluginClass) :
    Except PyExc Unit :=
  if config.sections.all fun p =>
      p.1 == "global" ||
        (match p.2.module with
         | some m => (plugins m).isSome
         | none => false) then
    Except.ok ()
  else Except.error (PyExc.otherError "invalid configuration")

/-- BlackBird._get_config (sr71.py lines 49-57): any exception raised
while reading and validating the configuration is caught and re-raised as
the distinguished BlackbirdError. -/
def getConfig (config : Config) (plugins : String → Option PluginClass) :
    Except PyExc Unit :=
  match configreadValidate config plugins with
  | Except.ok u => Except.ok u
  | Except.error e => Except.error (PyExc.blackbirdError (describeExc e))

/-- BlackBird.__init__ (sr71.py lines 33-47): read the configuration
through _get_config, then build the job table through
JobCreator.job_factory inside _create_threads.  Nothing catches
exceptions escaping job_factory. -/
def blackbirdInit (config : Config) (plugins : String → Option PluginClass) :
    Except PyExc (List (String × JobEntry)) :=
  match getConfig config plugins with
  | Except.error e => Except.error e
  | Except.ok _ => jobFactory config plugins

/-- The observable result of running the top-level entry point. -/
inductive MainResult where
  | exitCode (n : Nat)
  | uncaught (e : PyExc)
  | enteredLoop (jobs : List (String × JobEntry))
deriving DecidableEq

/-- sr71.main (lines 323-332): construct BlackBird and call start.  A
BlackbirdError raised during startup is caught, written to stderr and
turned into return value 1 (a non-zero process exit code); any other
exception propagates uncaught; when startup succeeds, start() enters the
supervisor loop, which never returns. -/
def mainEntry (config : Config) (plugins : String → Option PluginClass) : MainResult :=
  match blackbirdInit config plugins with
  | Except.error (PyExc.blackbirdError _) => MainResult.exitCode 1
  | Except.error e => MainResult.uncaught e
  | Except.ok jobs => MainResult.enteredLoop jobs

/-- The plugin class of the C9 counterexample: a valid module whose
collector constructor raises. -/
def c9Plugin : PluginClass :=
  { accepts_stats_queue := false, has_looped_method := false,
    has_build_items := true, has_build_discovery_items := false,
    init_raises := some "boom" }

/-- The C9 counterexample configuration: one well-formed section naming
the known module m. -/
def c9Config : Config :=
  { sections := [("s", { module := some "m", interval := none, lld_interval := none })]
    globalSec := { interval := none, lld_interval := none, max_queue_length := 10 } }

/-- The registry of the C9 counterexample. -/
def c9Plugins : String → Option PluginClass :=
  fun m => if m = "m" then some c9Plugin else none

/-- C9 counterexample: when the collector constructor raises, startup
aborts, but the error propagates as the constructor's own exception kind,
not as the distinguished configuration error: the top-level entry point
does not catch it and the exit-code-1 reporting path is not taken,
contradicting the claim that all three error conditions surface as the
distinguished configuration-error kind caught by the entry point. -/
theorem startup_constructor_error_not_distinguished :
    mainEntry c9Config c9Plugins = MainResult.uncaught (PyExc.otherError "boom")
    ∧ mainEntry c9Config c9Plugins ≠ MainResult.exitCode 1 :=
  ⟨rfl, by decide⟩

/-- C9 amended: a configuration in which some non-global section lacks a
module key or names an unknown module makes startup fail with the
distinguished configuration error — configread's validation raises,
_get_config wraps the error into BlackbirdError, the entry point catches
it and returns exit code 1 — before the supervisor loop is entered, and
startup runs only once (mainEntry is a single evaluation, never retried).
A collector constructor raising also aborts startup before the supervisor
loop, but propagates as its own exception kind, uncaught by the entry
point's BlackbirdError handler. -/
theorem startup_error_classification (config : Config)
    (plugins : String → Option PluginClass) :
    ((∃ p ∈ config.sections, p.1 ≠ "global" ∧
        (match p.2.module with
         | some m => plugins m = none
         | none => True)) →
      mainEntry config plugins = MainResult.exitCode 1)
    ∧ (∀ e : PyExc, (∀ msg, e ≠ PyExc.blackbirdError msg) →
        blackbirdInit config plugins = Except.error e →
        mainEntry config plugins = MainResult.uncaught e) := by
  constructor
  · rintro ⟨p, hp, hng, hmod⟩
    have hall : (config.sections.all fun p =>
        p.1 == "global" ||
          (match p.2.module with
           | some m => (plugins m).isSome
           | none => false)) = false := by
      rw [List.all_eq_false]
      refine ⟨p, hp, ?_⟩
      cases hpm : p.2.module with
      | none => simp [hpm, hng]
      | some m =>
        rw [hpm] at hmod
        simp [hpm, hng, hmod]
    simp [mainEntry, blackbirdInit, getConfig, configreadValidate, hall]
  · intro e hne h
    cases e with
    | blackbirdError m => exact absurd rfl (hne m)
    | keyError k => simp [mainEntry, h]
    | otherError m => simp [mainEntry, h]

/-- The unknown-module configuration of the C9 witness. -/
def c9WConfig : Config :=
  { sections :=
      [("s", { module := some "nope", interval := none, lld_interval := none })]
    globalSec := { interval := none, lld_interval := none, max_queue_length := 10 } }

/-- The empty registry of the C9 witness. -/
def c9WPlugins : String → Option PluginClass := fun _ => none

/-- Witness for the amended C9 theorem: on a configuration whose only
section names an unknown module, the entry point exits with code 1. -/
theorem startup_error_classification_witness :
    mainEntry c9WConfig c9WPlugins = MainResult.exitCode 1 :=
  (startup_error_classification c9WConfig c9WPlugins).1
    ⟨("s", { module := some "nope", interval := none, lld_interval := none }),
      by decide, by decide, by decide⟩

/-! ## Supervisor loop (sr71.py lines 120-165) -/

/-- One cycle of the supervisor main_loop (sr71.py lines 125-139): given
the snapshot threadnames of live thread names taken at the top of the
cycle, iterate over the job table; for every entry whose name is absent
from the snapshot a new Executor thread is started under that name, and
for every entry whose name is present nothing is started.  Returns the
names of the Executors started during this cycle, in iteration order. -/
def mainLoopCycle (threadnames : List String) (jobs : List (String × JobEntry)) :
    List String :=
  jobs.foldl
    (fun started p => if p.1 ∈ threadnames then started else started ++ [p.1]) []

/-- Count of starts accumulated by the cycle fold. -/
theorem mainLoopCycle_count_aux (threadnames : List String) (n : String) :
    ∀ (jobs : List (String × JobEntry)) (acc : List String),
      (jobs.foldl
          (fun started p =>
            if p.1 ∈ threadnames then started else started ++ [p.1]) acc).count n
        = acc.count n
          + (if n ∈ threadnames then 0 else (jobs.map Prod.fst).count n) := by
  intro jobs
  induction jobs with
  | nil =>
    intro acc
    simp
  | cons p rest ih =>
    intro acc
    simp only [List.foldl_cons]
    rw [ih]
    by_cases hp : p.1 ∈ threadnames
    · rw [if_pos hp]
      by_cases hn : n ∈ threadnames
      · simp [hn]
      · have hpn : p.1 ≠ n := fun hc => hn (hc ▸ hp)
        simp [hn, List.count_cons, hpn]
    · rw [if_neg hp]
      by_cases hn : n ∈ threadnames
      · have hpn : p.1 ≠ n := fun hc => hp (hc ▸ hn)
        simp [hn, List.count_append, List.count_cons, hpn]
      · by_cases hpn : p.1 = n <;>
          simp [hn, List.count_append, List.count_cons, hpn] <;> omega

/-- C5: in every supervisor cycle, a job name present in the liveness
snapshot gets no new Worker (zero starts this cycle), and a job name
absent from the snapshot gets exactly one Worker start per job-table
entry under that name (exactly one for the dict-shaped table); hence no
job name ever has a second Worker started while an earlier Worker with
that name is still in the snapshot. -/
theorem supervisor_cycle_start_policy (threadnames : List String)
    (jobs : List (String × JobEntry)) (n : String) :
    (n ∈ threadnames → (mainLoopCycle threadnames jobs).count n = 0)
    ∧ (n ∉ threadnames →
        (mainLoopCycle threadnames jobs).count n = (jobs.map Prod.fst).count n) := by
  have h := mainLoopCycle_count_aux threadnames n jobs []
  constructor
  · intro hn
    rw [mainLoopCycle, h]
    simp [hn]
  · intro hn
    rw [mainLoopCycle, h]
    simp [hn]

/-- A job entry used by the C5 witness. -/
def c5Entry : JobEntry :=
  { method := ("a", JobKind.build_items), interval := PyVal.pyInt 60 }

/-- The job table of the C5 witness. -/
def c5Jobs : List (String × JobEntry) := [("a", c5Entry), ("b", c5Entry)]

/-- Witness for C5 with snapshot containing a but not b: the cycle starts
no Worker named a and exactly one Worker named b. -/
theorem supervisor_cycle_start_policy_witness :
    (mainLoopCycle ["a"] c5Jobs).count "a" = 0
    ∧ (mainLoopCycle ["a"] c5Jobs).count "b" = (c5Jobs.map Prod.fst).count "b" :=
  ⟨(supervisor_cycle_start_policy ["a"] c5Jobs "a").1 (by decide),
   (supervisor_cycle_start_policy ["a"] c5Jobs "b").2 (by decide)⟩

/-! ## Bounded queue (sr71.py lines 174-183) -/

/-- The shared bounded FIFO.  Modelled from the spec: Queue.Queue is the
Python standard library's thread-safe bounded FIFO — put blocks while the
queue holds maxsize items and never drops, get removes the oldest item.
State is the fixed capacity and the current items, oldest first. -/
structure BQueue (α : Type) where
  cap : Nat
  items : List α
deriving DecidableEq

/-- The queue created by JobCreator.__init__ (sr71.py lines 174-183):
Queue.Queue(config['global']['max_queue_length']) — a fresh empty queue
whose fixed capacity is the global max_queue_length option. -/
def JobCreator.initQueue (α : Type) (g : GlobalOptions) : BQueue α :=
  { cap := g.max_queue_length, items := [] }

/-- A queue operation: a producer put (enqueue) or a consumer get
(dequeue). -/
inductive QOp (α : Type) where
  | enq (a : α)
  | deq
deriving DecidableEq

/-- One step of the queue: an enqueue is enabled only while the length is
below capacity (a put on a full queue blocks, i.e. cannot proceed until a
dequeue makes room), a dequeue is enabled only on a non-empty queue.  The
step returns the new state and the dequeued item, if any. -/
def qstep {α : Type} (q : BQueue α) : QOp α → Option (BQueue α × Option α)
  | .enq a =>
    if q.items.length < q.cap then
      some ({ cap := q.cap, items := q.items ++ [a] }, none)
    else none
  | .deq =>
    match q.items with
    | [] => none
    | x :: xs => some ({ cap := q.cap, items := xs }, some x)

/-- Execution of a sequence of interleaved operations; none when some
operation is not enabled at its turn.  Returns the final state and the
dequeued items in order. -/
def runOps {α : Type} (q : BQueue α) : List (QOp α) → Option (BQueue α × List α)
  | [] => some (q, [])
  | op :: ops =>
    (qstep q op).bind fun s =>
      (runOps s.1 ops).bind fun r => some (r.1, s.2.toList ++ r.2)

/-- The items a sequence of operations enqueues, in order. -/
def enqueuedItems {α : Type} : List (QOp α) → List α
  | [] => []
  | .enq a :: ops => a :: enqueuedItems ops
  | .deq :: ops => enqueuedItems ops

/-- Every successful run preserves the capacity, keeps the length within
capacity, and loses no data: the dequeued items followed by the remaining
items are exactly the initial items followed by everything enqueued. -/
theorem runOps_spec {α : Type} :
    ∀ (ops : List (QOp α)) (q qf : BQueue α) (outs : List α),
      runOps q ops = some (qf, outs) →
      qf.cap = q.cap
      ∧ (q.items.length ≤ q.cap → qf.items.length ≤ qf.cap)
      ∧ outs ++ qf.items = q.items ++ enqueuedItems ops := by
  intro ops
  induction ops with
  | nil =>
    intro q qf outs h
    simp only [runOps, Option.some.injEq, Prod.mk.injEq] at h
    obtain ⟨h1, h2⟩ := h
    subst h1
    subst h2
    simp [enqueuedItems]
  | cons op rest ih =>
    intro q qf outs h
    rw [runOps] at h
    cases hs : qstep q op with
    | none =>
      rw [hs] at h
      simp at h
    | some s =>
      obtain ⟨q1, out⟩ := s
      rw [hs] at h
      simp only [Option.some_bind] at h
      cases hro : runOps q1 rest with
      | none =>
        rw [hro] at h
        simp at h
      | some r =>
        obtain ⟨qf1, outs1⟩ := r
        rw [hro] at h
        simp only [Option.some_bind, Option.some.injEq, Prod.mk.injEq] at h
        obtain ⟨h1, h2⟩ := h
        subst h1
        subst h2
        obtain ⟨ih1, ih2, ih3⟩ := ih q1 qf1 outs1 hro
        cases op with
        | enq a =>
          rw [qstep] at hs
          by_cases hc : q.items.length < q.cap
          · rw [if_pos hc] at hs
            simp only [Option.some.injEq, Prod.mk.injEq] at hs
            obtain ⟨hq1, hout⟩ := hs
            subst hq1
            subst hout
            refine ⟨by simpa using ih1, ?_, ?_⟩
            · intro _
              apply ih2
              show (q.items ++ [a]).length ≤ q.cap
              simp only [List.length_append, List.length_cons, List.length_nil]
              omega
            · simp only [Option.toList_none, List.nil_append]
              rw [ih3]
              show q.items ++ [a] ++ enqueuedItems rest
                = q.items ++ enqueuedItems (QOp.enq a :: rest)
              simp [enqueuedItems, List.append_assoc]
          · rw [if_neg hc] at hs
            exact absurd hs (by simp)
        | deq =>
          rw [qstep] at hs
          cases hqi : q.items with
          | nil =>
            rw [hqi] at hs
            simp at hs
          | cons x xs =>
            rw [hqi] at hs
            simp only [Option.some.injEq, Prod.mk.injEq] at hs
            obtain ⟨hq1, hout⟩ := hs
            subst hq1
            subst hout
            refine ⟨by simpa using ih1, ?_, ?_⟩
            · intro hlen
              apply ih2
              show xs.length ≤ q.cap
              simp only [List.length_cons] at hlen
              omega
            · simp only [Option.toList_some, List.singleton_append, List.cons_append,
                enqueuedItems]
              simp [ih3]

/-- C8: the shared queue is created with fixed capacity equal to the
global max_queue_length option, and for every sequence of interleaved
enqueue and dequeue operations run from it: the length never exceeds that
capacity (every reachable state — each being the final state of some
prefix, which this quantification covers — stays within bounds), no
enqueued item is ever lost (dequeued items followed by remaining items
are exactly the enqueued items), an enqueue on a full queue is not
enabled (it blocks), and it becomes enabled again once an item is
dequeued. -/
theorem bounded_queue_capacity_and_no_loss {α : Type} (g : GlobalOptions) :
    (JobCreator.initQueue α g).cap = g.max_queue_length
    ∧ (∀ (ops : List (QOp α)) (qf : BQueue α) (outs : List α),
        runOps (JobCreator.initQueue α g) ops = some (qf, outs) →
        qf.items.length ≤ g.max_queue_length
          ∧ outs ++ qf.items = enqueuedItems ops)
    ∧ (∀ (q : BQueue α) (a : α), q.items.length = q.cap →
        qstep q (QOp.enq a) = none)
    ∧ (∀ (q q1 : BQueue α) (out : Option α) (a : α), q.items.length ≤ q.cap →
        qstep q QOp.deq = some (q1, out) → qstep q1 (QOp.enq a) ≠ none) := by
  refine ⟨rfl, ?_, ?_, ?_⟩
  · intro ops qf outs h
    obtain ⟨h1, h2, h3⟩ := runOps_spec ops (JobCreator.initQueue α g) qf outs h
    refine ⟨?_, ?_⟩
    · have hb := h2 (by simp [JobCreator.initQueue])
      rw [h1] at hb
      simpa [JobCreator.initQueue] using hb
    · simpa [JobCreator.initQueue] using h3
  · intro q a hfull
    simp [qstep, hfull]
  · intro q q1 out a hlen hstep
    cases hqi : q.items with
    | nil =>
      rw [qstep, hqi] at hstep
      simp at hstep
    | cons x xs =>
      rw [qstep, hqi] at hstep
      simp only [Option.some.injEq, Prod.mk.injEq] at hstep
      obtain ⟨h1, _⟩ := hstep
      rw [qstep, ← h1]
      have : xs.length < q.cap := by
        rw [hqi] at hlen
        simp only [List.length_cons] at hlen
        omega
      simp [this]

/-- Witness for C8 at capacity 2 and the operation sequence enq 1, enq 2,
deq: the created queue has capacity 2, the run ends with one item and one
dequeued item and loses nothing. -/
theorem bounded_queue_capacity_and_no_loss_witness :
    (JobCreator.initQueue Nat
        { interval := none, lld_interval := none, max_queue_length := 2 }).cap = 2
    ∧ (({ cap := 2, items := [2] } : BQueue Nat).items.length ≤ 2
        ∧ [1] ++ ({ cap := 2, items := [2] } : BQueue Nat).items
            = enqueuedItems [QOp.enq 1, QOp.enq 2, QOp.deq]) :=
  ⟨(bounded_queue_capacity_and_no_loss
      { interval := none, lld_interval := none, max_queue_length := 2 }).1,
   ((bounded_queue_capacity_and_no_loss
      { interval := none, lld_interval := none, max_queue_length := 2 }).2.1
      [QOp.enq 1, QOp.enq 2, QOp.deq] { cap := 2, items := [2] } [1] (by rfl))⟩

end Blackbird
